import Mathlib

/-!
Verification of the Bulk-Email queue engine.

This file shallowly embeds the queue/job engine of the repository:
the in-memory service layer in `src/lib/queue.ts` (recipient store,
status map, single-flight batch lock, send loop, post-batch cleanup)
and the file-backed storage in `src/lib/jsonStorage.ts` (`readDataSync`,
`getQueueState`, `cleanupQueue`), together with the enqueue API handler.

JavaScript objects keyed by recipient id are modelled as association
lists in insertion order (`statusGet` / `statusSet` mirror property read
and property assignment); `String.toLower` models
`String.prototype.toLowerCase` on the ASCII e-mail addresses involved.
-/

namespace BulkEmail

/-- Models `String.prototype.toLowerCase` as applied to the e-mail strings of
this repository: lowercase every character. (On the ASCII addresses involved
this agrees with JavaScript; defined on the character list so the kernel can
evaluate it.) -/
def toLowerCase (s : String) : String := ⟨s.data.map Char.toLower⟩

/-- The send status enum from `src/types` (`SendStatus`). -/
inductive SendStatus
  | PENDING
  | SENDING
  | SENT
  | FAILED
deriving Repr, DecidableEq

/-- A recipient record from `src/types` (`Recipient`). -/
structure Recipient where
  id : String
  name : String
  email : String
  company : String
deriving Repr, DecidableEq

/-- A candidate record as submitted to enqueue: `Omit<Recipient, 'id'>`. -/
structure RecipientInput where
  name : String
  email : String
  company : String
deriving Repr, DecidableEq

/-- The status map `StatusMap = Record<string, SendStatus>`, modelled as an
association list in insertion order (one entry per key, as for a JS object). -/
abbrev StatusMap := List (String × SendStatus)

/-- Property read `statuses[k]`: the value at key `k`, if present. -/
def statusGet (m : StatusMap) (k : String) : Option SendStatus :=
  match m with
  | [] => none
  | (k', v) :: rest => if k' = k then some v else statusGet rest k

/-- Property assignment `statuses[k] = v`: overwrite in place if the key is
present, otherwise append a new entry (JS object insertion-order semantics). -/
def statusSet (m : StatusMap) (k : String) (v : SendStatus) : StatusMap :=
  match m with
  | [] => [(k, v)]
  | (k', v') :: rest =>
      if k' = k then (k', v) :: rest else (k', v') :: statusSet rest k v

/-- The mutable module state of `src/lib/queue.ts`: the `recipients` array,
the `statuses` map and the `isSendingProcessActive` flag. -/
structure QueueState where
  recipients : List Recipient
  statuses : StatusMap
  isSendingProcessActive : Bool
deriving Repr, DecidableEq

/-- Result value of `addRecipients` in `src/lib/queue.ts`: it returns the
object literal `\x7b success: true \x7d` (and nothing else — in particular
no count of added records). -/
structure AddResult where
  success : Bool
deriving Repr, DecidableEq

/-- Result value of `processQueue` in `src/lib/queue.ts`. -/
structure ProcessResult where
  success : Bool
  message : String
deriving Repr, DecidableEq

/-- The candidates surviving dedup in `addRecipients`
(`src/lib/queue.ts` lines 115-118): filter out every candidate whose
lowercased email is already the lowercased email of a stored recipient
(the `existingEmails` set is computed once, from stored recipients only),
then assign `id := email.toLowerCase()`. -/
def survivingCandidates (st : QueueState) (newRecipients : List RecipientInput) :
    List Recipient :=
  let existingEmails := st.recipients.map (fun r => toLowerCase r.email)
  (newRecipients.filter
      (fun r => !(existingEmails.contains (toLowerCase r.email)))).map
    (fun r => { id := toLowerCase r.email, name := r.name, email := r.email,
                company := r.company })

/-- `addRecipients` from `src/lib/queue.ts` (lines 114-126): append the
surviving candidates to the recipient array, set each of their statuses to
`PENDING`, and return `\x7b success: true \x7d`. -/
def addRecipients (st : QueueState) (newRecipients : List RecipientInput) :
    QueueState × AddResult :=
  let uniqueNewRecipients := survivingCandidates st newRecipients
  ({ recipients := st.recipients ++ uniqueNewRecipients,
     statuses := uniqueNewRecipients.foldl
       (fun m r => statusSet m r.id SendStatus.PENDING) st.statuses,
     isSendingProcessActive := st.isSendingProcessActive },
   { success := true })

/-- The synchronous part of `processQueue` from `src/lib/queue.ts`
(lines 128-137 and 166): reject when a send process is already active,
reject when the recipient array is empty, otherwise set the flag and
report success. The detached batch body is modelled separately. -/
def processQueue (st : QueueState) : QueueState × ProcessResult :=
  if st.isSendingProcessActive then
    (st, { success := false, message := "A send process is already running." })
  else if st.recipients.length = 0 then
    (st, { success := false, message := "The queue is empty." })
  else
    ({ st with isSendingProcessActive := true },
     { success := true, message := "Email sending process initiated." })

/-- One iteration of the send loop in `processQueue`
(`src/lib/queue.ts` lines 142-148): if the recipient's current status is
`PENDING`, write `SENDING`, await the mailer, then write `SENT` on success
and `FAILED` on failure; otherwise leave the map untouched. The mailer
argument models the resolved outcome of `sendMailLogic`, which catches every
error internally and resolves to a success boolean. -/
def sendStep (mailer : Recipient → Bool) (m : StatusMap) (r : Recipient) :
    StatusMap :=
  if statusGet m r.id = some SendStatus.PENDING then
    statusSet (statusSet m r.id SendStatus.SENDING) r.id
      (if mailer r then SendStatus.SENT else SendStatus.FAILED)
  else m

/-- The send loop of the batch body (`src/lib/queue.ts` lines 140-148):
fold `sendStep` over the snapshot `recipientsToSend` taken at loop start. -/
def sendLoop (mailer : Recipient → Bool) (snapshot : List Recipient)
    (m : StatusMap) : StatusMap :=
  snapshot.foldl (sendStep mailer) m

/-- The post-batch cleanup (`src/lib/queue.ts` lines 151-163, and the same
logic in `EmailQueueStorage.cleanupQueue`, `src/lib/jsonStorage.ts` lines
199-214): keep exactly the recipients whose status is `FAILED`, rebuild the
status map with those reset to `PENDING`, and clear the sending flag. -/
def cleanupQueue (st : QueueState) : QueueState :=
  let failedRecipients :=
    st.recipients.filter (fun r => statusGet st.statuses r.id = some SendStatus.FAILED)
  let remainingStatuses :=
    failedRecipients.foldl (fun m r => statusSet m r.id SendStatus.PENDING)
      ([] : StatusMap)
  { recipients := failedRecipients,
    statuses := remainingStatuses,
    isSendingProcessActive := false }

/-- The send loop with an explicit exceptional outcome for the awaited step:
`Except.error` models a rejected promise escaping the loop body. On escape
the statuses written so far (including the in-progress `SENDING` write) are
kept and the rest of the body — in particular the scheduled cleanup — never
runs, mirroring the absence of any try/finally in the async block of
`src/lib/queue.ts` lines 139-164. -/
def sendLoopExc (mailer : Recipient → Except Unit Bool)
    (snapshot : List Recipient) (m : StatusMap) : Except StatusMap StatusMap :=
  match snapshot with
  | [] => Except.ok m
  | r :: rest =>
      if statusGet m r.id = some SendStatus.PENDING then
        let m1 := statusSet m r.id SendStatus.SENDING
        match mailer r with
        | Except.error _ => Except.error m1
        | Except.ok ok =>
            sendLoopExc mailer rest
              (statusSet m1 r.id (if ok then SendStatus.SENT else SendStatus.FAILED))
      else sendLoopExc mailer rest m

/-- The detached batch body of `processQueue` (`src/lib/queue.ts` lines
139-164) as one state transformer: snapshot the recipient array, run the
send loop, and — only when the loop completes normally — run the scheduled
cleanup, which is the sole place `isSendingProcessActive` is reset. When an
exception escapes the loop it propagates with the module state at that
moment: the flag is left exactly as it was (there is no handler). -/
def runBatchBody (mailer : Recipient → Except Unit Bool) (st : QueueState) :
    Except QueueState QueueState :=
  match sendLoopExc mailer st.recipients st.statuses with
  | Except.error m1 => Except.error { st with statuses := m1 }
  | Except.ok m1 => Except.ok (cleanupQueue { st with statuses := m1 })

/-- The request body of the enqueue API route (`src/unnamed/part_001`):
either a JSON array of candidate records, or anything that fails the
`Array.isArray` check. -/
inductive RequestBody
  | jsonArray (records : List RecipientInput)
  | notArray
deriving Repr, DecidableEq

/-- The enqueue API handler (`src/unnamed/part_001`, the POST branch):
reject a non-array body with HTTP 400; otherwise call `addRecipients` and
answer 201 when it reports success, 400 otherwise. No field of any record
is inspected: the handler performs no per-record validation. -/
def addRecipientsHandler (st : QueueState) (body : RequestBody) :
    QueueState × Nat :=
  match body with
  | RequestBody.notArray => (st, 400)
  | RequestBody.jsonArray records =>
      let res := addRecipients st records
      if res.2.success then (res.1, 201) else (res.1, 400)

/-- A JSON value as produced by `JSON.parse` on the data file. Numbers are
modelled as integers: `JSON.parse` yields only finite numbers, and the sole
number property the embedded storage code inspects is zero-versus-nonzero
truthiness, for which integers represent every distinguishable case. -/
inductive JsonValue
  | null
  | bool (b : Bool)
  | num (n : Int)
  | str (s : String)
  | arr (elems : List JsonValue)
  | obj (fields : List (String × JsonValue))
deriving Repr

/-- Field lookup in a parsed object's field list (a parsed object's keys
are unique, so first match suffices). -/
def lookupField (fields : List (String × JsonValue)) (k : String) :
    Option JsonValue :=
  match fields with
  | [] => none
  | (k', v) :: rest => if k' = k then some v else lookupField rest k

/-- JavaScript property read `v[k]` on a parsed JSON value: `none` models
`undefined`; only objects carry the properties read here. -/
def jsGetField (v : JsonValue) (k : String) : Option JsonValue :=
  match v with
  | JsonValue.obj fields => lookupField fields k
  | _ => none

/-- JavaScript truthiness of a possibly-undefined value: `undefined`,
`null`, `false`, `0` and the empty string are falsy; every other value —
arrays and objects included, empty or not — is truthy. -/
def jsTruthy (v : Option JsonValue) : Bool :=
  match v with
  | none => false
  | some JsonValue.null => false
  | some (JsonValue.bool b) => b
  | some (JsonValue.num n) => decide (n ≠ 0)
  | some (JsonValue.str s) => decide (s ≠ "")
  | some (JsonValue.arr _) => true
  | some (JsonValue.obj _) => true

/-- The check `typeof v === 'boolean'` on a possibly-undefined value. -/
def jsIsBoolean (v : Option JsonValue) : Bool :=
  match v with
  | some (JsonValue.bool _) => true
  | _ => false

/-- The array spread `[...v]`: succeeds on iterables — an array yields its
elements, a string its characters — and throws a `TypeError`
(`Except.error`) on every other value, `undefined` and `null` included. -/
def jsArraySpread (v : Option JsonValue) : Except Unit (List JsonValue) :=
  match v with
  | some (JsonValue.arr xs) => Except.ok xs
  | some (JsonValue.str s) =>
      Except.ok (s.data.map (fun c => JsonValue.str (String.mk [c])))
  | _ => Except.error ()

/-- The object spread `\x7b...v\x7d`: copies an object's fields, turns a string
into index-keyed characters, and yields the empty object on every other
value; it never throws. -/
def jsObjectSpread (v : Option JsonValue) : List (String × JsonValue) :=
  match v with
  | some (JsonValue.obj fields) => fields
  | some (JsonValue.str s) =>
      s.data.enum.map
        (fun p => (Nat.repr p.1, JsonValue.str (String.mk [p.2])))
  | _ => []

/-- The possible states of the data file as seen by `readDataSync`:
missing, unreadable (the read or `JSON.parse` throws), or parsed into a
JSON value. -/
inductive FileReadResult
  | missing
  | unreadable
  | parsed (data : JsonValue)
deriving Repr

/-- The `defaultData` of `EmailQueueStorage` as a JSON document: empty
recipients, empty statuses, sending inactive (the `lastUpdated` timestamp,
which no claim concerns, is omitted). -/
def defaultData : JsonValue :=
  JsonValue.obj
    [("recipients", JsonValue.arr []),
     ("statuses", JsonValue.obj []),
     ("isSendingProcessActive", JsonValue.bool false)]

/-- `EmailQueueStorage.readDataSync` (`src/lib/jsonStorage.ts` lines
81-101): a missing file and a read/parse error yield the default data; a
parsed document is checked only shallowly — `!data.recipients ||
!data.statuses || typeof data.isSendingProcessActive !== 'boolean'` resets
to the default — and a document passing this truthiness/typeof check is
returned as is, well-typed or not (the source merely type-casts the parse
result). -/
def readDataSync (f : FileReadResult) : JsonValue :=
  match f with
  | FileReadResult.missing => defaultData
  | FileReadResult.unreadable => defaultData
  | FileReadResult.parsed data =>
      if jsTruthy (jsGetField data "recipients")
          && jsTruthy (jsGetField data "statuses")
          && jsIsBoolean (jsGetField data "isSendingProcessActive") then
        data
      else defaultData

/-- The snapshot shape built by `EmailQueueStorage.getQueueState`. -/
structure Snapshot where
  recipients : List JsonValue
  statuses : List (String × JsonValue)
  isSending : Option JsonValue
deriving Repr

/-- `EmailQueueStorage.getQueueState` (`src/lib/jsonStorage.ts` lines
115-122): read the data synchronously, then build the snapshot literal.
The array spread `[...data.recipients]` throws a `TypeError`
(`Except.error`) when the recipients field of the read data is not
iterable; the object spread of the statuses field and the plain flag read
cannot throw. -/
def getQueueState (f : FileReadResult) : Except Unit Snapshot :=
  let data := readDataSync f
  match jsArraySpread (jsGetField data "recipients") with
  | Except.error e => Except.error e
  | Except.ok recips =>
      Except.ok
        { recipients := recips,
          statuses := jsObjectSpread (jsGetField data "statuses"),
          isSending := jsGetField data "isSendingProcessActive" }

/-- A parsed document that passes the shallow check while being ill-typed:
its `recipients` field is the number 1 — truthy, but not an array. -/
def illTypedDoc : JsonValue :=
  JsonValue.obj
    [("recipients", JsonValue.num 1),
     ("statuses", JsonValue.obj []),
     ("isSendingProcessActive", JsonValue.bool false)]

/-- An empty module state: no recipients, no statuses, not sending. -/
def st0Empty : QueueState :=
  { recipients := [], statuses := [], isSendingProcessActive := false }

/-- A sample stored recipient, as `addRecipients` would create it. -/
def raEx : Recipient :=
  { id := "a@x.com", name := "A", email := "a@x.com", company := "X" }

/-- A second sample recipient with a distinct address. -/
def rbEx : Recipient :=
  { id := "b@y.com", name := "B", email := "b@y.com", company := "Y" }

/-- A sample enqueue candidate for `a@x.com`. -/
def caEx : RecipientInput := { name := "A", email := "a@x.com", company := "X" }

/-- The same address as `caEx` in a different letter case. -/
def cAXEx : RecipientInput := { name := "B", email := "A@X.com", company := "Y" }

/-- A sample enqueue candidate for `b@y.com`. -/
def cbEx : RecipientInput := { name := "B", email := "b@y.com", company := "Y" }

/-- A candidate with empty name and company and a malformed address. -/
def badInputEx : RecipientInput :=
  { name := "", email := "not-an-email", company := "" }

/-- A state with one pending recipient and the sending flag not yet set. -/
def stEx : QueueState :=
  { recipients := [raEx], statuses := [("a@x.com", SendStatus.PENDING)],
    isSendingProcessActive := false }

/-- The state of `stEx` right after a successful `processQueue` call, at the
moment the detached batch body snapshots the recipient array. -/
def stMid : QueueState :=
  { recipients := [raEx], statuses := [("a@x.com", SendStatus.PENDING)],
    isSendingProcessActive := true }

/-- A state holding one recipient whose batch attempt failed. -/
def stFailedEx : QueueState :=
  { recipients := [raEx], statuses := [("a@x.com", SendStatus.FAILED)],
    isSendingProcessActive := true }

theorem statusGet_statusSet_self (m : StatusMap) (k : String) (v : SendStatus) :
    statusGet (statusSet m k v) k = some v := by
  induction m with
  | nil => simp [statusSet, statusGet]
  | cons p rest ih =>
      obtain ⟨k', v'⟩ := p
      by_cases h : k' = k
      · simp [statusSet, statusGet, h]
      · simp [statusSet, statusGet, h, ih]

theorem statusGet_statusSet_ne (m : StatusMap) {k k' : String} (v : SendStatus)
    (h : k' ≠ k) : statusGet (statusSet m k v) k' = statusGet m k' := by
  induction m with
  | nil => simp [statusSet, statusGet, Ne.symm h]
  | cons p rest ih =>
      obtain ⟨k0, v0⟩ := p
      by_cases h0 : k0 = k
      · subst h0
        simp [statusSet, statusGet, Ne.symm h]
      · by_cases h1 : k0 = k'
        · simp [statusSet, statusGet, h0, h1, h]
        · simp [statusSet, statusGet, h0, h1, ih]

theorem statusGet_foldl_statusSet (l : List Recipient) (m : StatusMap)
    (k : String) (v : SendStatus) :
    statusGet (l.foldl (fun acc r => statusSet acc r.id v) m) k
      = if k ∈ l.map Recipient.id then some v else statusGet m k := by
  induction l generalizing m with
  | nil => simp
  | cons r rest ih =>
      rw [List.foldl_cons, ih]
      by_cases hk : r.id = k
      · subst hk
        by_cases h2 : r.id ∈ rest.map Recipient.id
        · simp [h2]
        · simp [h2, statusGet_statusSet_self]
      · rw [statusGet_statusSet_ne m v (Ne.symm hk)]
        by_cases h2 : k ∈ rest.map Recipient.id
        · simp [h2]
        · have h3 : k ∉ List.map Recipient.id (r :: rest) := by
            rw [List.map_cons]
            intro hc
            rcases List.mem_cons.mp hc with hc1 | hc2
            · exact hk hc1.symm
            · exact h2 hc2
          rw [if_neg h2, if_neg h3]

theorem statusSet_all_values {m : StatusMap} {v : SendStatus} (k : String)
    (h : ∀ p ∈ m, p.2 = v) : ∀ p ∈ statusSet m k v, p.2 = v := by
  induction m with
  | nil => simp [statusSet]
  | cons q rest ih =>
      obtain ⟨k0, v0⟩ := q
      by_cases h0 : k0 = k
      · simp only [statusSet, h0, if_pos rfl]
        intro p hp
        rcases List.mem_cons.mp hp with h1 | h1
        · simp [h1]
        · exact h p (List.mem_cons_of_mem _ h1)
      · simp only [statusSet, if_neg h0]
        intro p hp
        rcases List.mem_cons.mp hp with h1 | h1
        · exact h p (h1 ▸ List.mem_cons_self _ _)
        · exact ih (fun q hq => h q (List.mem_cons_of_mem _ hq)) p h1

theorem foldl_statusSet_all_values (l : List Recipient) (m : StatusMap)
    (v : SendStatus) (h : ∀ p ∈ m, p.2 = v) :
    ∀ p ∈ l.foldl (fun acc r => statusSet acc r.id v) m, p.2 = v := by
  induction l generalizing m with
  | nil => exact h
  | cons r rest ih => exact ih _ (statusSet_all_values r.id h)

theorem sendStep_get_ne (mailer : Recipient → Bool) (m : StatusMap)
    (r : Recipient) {k : String} (h : k ≠ r.id) :
    statusGet (sendStep mailer m r) k = statusGet m k := by
  unfold sendStep
  split
  · rw [statusGet_statusSet_ne _ _ h, statusGet_statusSet_ne _ _ h]
  · rfl

theorem sendStep_skip (mailer : Recipient → Bool) {m : StatusMap}
    {r : Recipient} (h : statusGet m r.id ≠ some SendStatus.PENDING) :
    sendStep mailer m r = m := by
  simp [sendStep, h]

theorem sendStep_get_self (mailer : Recipient → Bool) {m : StatusMap}
    {r : Recipient} (h : statusGet m r.id = some SendStatus.PENDING) :
    statusGet (sendStep mailer m r) r.id
      = some (if mailer r then SendStatus.SENT else SendStatus.FAILED) := by
  simp [sendStep, h, statusGet_statusSet_self]

theorem sendLoop_get_stable (mailer : Recipient → Bool)
    (xs : List Recipient) (m : StatusMap) (k : String)
    (h : statusGet m k ≠ some SendStatus.PENDING) :
    statusGet (sendLoop mailer xs m) k = statusGet m k := by
  induction xs generalizing m with
  | nil => rfl
  | cons r rest ih =>
      show statusGet (sendLoop mailer rest (sendStep mailer m r)) k = _
      by_cases hk : k = r.id
      · rw [sendStep_skip mailer (hk ▸ h)]
        exact ih m h
      · have h2 : statusGet (sendStep mailer m r) k = statusGet m k :=
          sendStep_get_ne mailer m r hk
        rw [ih _ (h2 ▸ h), h2]

theorem sendLoop_untouched (mailer : Recipient → Bool)
    (xs : List Recipient) (m : StatusMap) (k : String)
    (h : ∀ r ∈ xs, r.id ≠ k) :
    statusGet (sendLoop mailer xs m) k = statusGet m k := by
  induction xs generalizing m with
  | nil => rfl
  | cons r rest ih =>
      show statusGet (sendLoop mailer rest (sendStep mailer m r)) k = _
      have h2 : statusGet (sendStep mailer m r) k = statusGet m k :=
        sendStep_get_ne mailer m r (Ne.symm (h r (List.mem_cons_self _ _)))
      rw [ih _ (fun q hq => h q (List.mem_cons_of_mem _ hq)), h2]

theorem sendLoop_pending_terminal (mailer : Recipient → Bool)
    (xs : List Recipient) (m : StatusMap) (r : Recipient)
    (hr : r ∈ xs) (h : statusGet m r.id = some SendStatus.PENDING) :
    statusGet (sendLoop mailer xs m) r.id = some SendStatus.SENT ∨
    statusGet (sendLoop mailer xs m) r.id = some SendStatus.FAILED := by
  induction xs generalizing m with
  | nil => cases hr
  | cons r0 rest ih =>
      show statusGet (sendLoop mailer rest (sendStep mailer m r0)) r.id
              = some SendStatus.SENT ∨
           statusGet (sendLoop mailer rest (sendStep mailer m r0)) r.id
              = some SendStatus.FAILED
      by_cases hid : r0.id = r.id
      · have hc : statusGet m r0.id = some SendStatus.PENDING := hid ▸ h
        have hterm : statusGet (sendStep mailer m r0) r.id
            = some (if mailer r0 then SendStatus.SENT else SendStatus.FAILED) :=
          hid ▸ sendStep_get_self mailer hc
        have hstable :
            statusGet (sendLoop mailer rest (sendStep mailer m r0)) r.id
              = statusGet (sendStep mailer m r0) r.id := by
          apply sendLoop_get_stable
          rw [hterm]
          cases hmail : mailer r0 <;> simp
        rw [hstable, hterm]
        cases hmail : mailer r0 <;> simp
      · have h2 : statusGet (sendStep mailer m r0) r.id = statusGet m r.id :=
          sendStep_get_ne mailer m r0 (fun he => hid he.symm)
        have hrest : r ∈ rest := by
          rcases List.mem_cons.mp hr with h3 | h3
          · exact absurd (congrArg Recipient.id h3.symm) hid
          · exact h3
        exact ih _ hrest (h2.trans h)

theorem sendLoop_no_new_sending (mailer : Recipient → Bool)
    (xs : List Recipient) (m : StatusMap) (k : String)
    (h : statusGet m k ≠ some SendStatus.SENDING) :
    statusGet (sendLoop mailer xs m) k ≠ some SendStatus.SENDING := by
  induction xs generalizing m with
  | nil => exact h
  | cons r0 rest ih =>
      show statusGet (sendLoop mailer rest (sendStep mailer m r0)) k ≠ _
      apply ih
      by_cases hk : k = r0.id
      · by_cases hp : statusGet m r0.id = some SendStatus.PENDING
        · rw [hk, sendStep_get_self mailer hp]
          cases hmail : mailer r0 <;> simp
        · rw [sendStep_skip mailer hp]
          exact h
      · rw [sendStep_get_ne mailer m r0 hk]
        exact h

/-- C1: `processQueue` rejects when a send process is already active (state
unchanged), rejects on an empty recipient array when no process is active
(state unchanged, so the lock stays unset), and otherwise sets the flag and
reports success; launching again right after a successful launch is
rejected with the already-running message and changes no state, so of two
sequential launch attempts exactly one is accepted. -/
theorem processQueue_single_flight (st : QueueState) :
    (st.isSendingProcessActive = true →
       processQueue st =
         (st, { success := false,
                message := "A send process is already running." })) ∧
    (st.isSendingProcessActive = false → st.recipients = [] →
       processQueue st =
         (st, { success := false, message := "The queue is empty." })) ∧
    (st.isSendingProcessActive = false → st.recipients ≠ [] →
       processQueue st =
         ({ st with isSendingProcessActive := true },
          { success := true, message := "Email sending process initiated." }) ∧
       processQueue { st with isSendingProcessActive := true } =
         ({ st with isSendingProcessActive := true },
          { success := false,
            message := "A send process is already running." })) := by
  refine ⟨?_, ?_, ?_⟩
  · intro h
    simp [processQueue, h]
  · intro h h2
    simp [processQueue, h, h2]
  · intro h h2
    have hlen : ¬ st.recipients.length = 0 := by
      simpa [List.length_eq_zero] using h2
    exact ⟨by simp [processQueue, h, hlen], by simp [processQueue]⟩

/-- Witness for C1 at a one-recipient inactive state: the first launch is
accepted and flips the flag; the immediately following launch is rejected
with no state change. -/
theorem processQueue_single_flight_witness :
    processQueue stEx =
      ({ stEx with isSendingProcessActive := true },
       { success := true, message := "Email sending process initiated." }) ∧
    processQueue { stEx with isSendingProcessActive := true } =
      ({ stEx with isSendingProcessActive := true },
       { success := false,
         message := "A send process is already running." }) :=
  (processQueue_single_flight stEx).2.2 rfl (by decide)

/-- C2: after cleanup the sending flag is false, the surviving recipients
are exactly those whose status was `FAILED` (so in particular no recipient
whose status was `SENT` survives), every surviving recipient now reads
status `PENDING`, and the rebuilt status map holds no value other than
`PENDING`. -/
theorem cleanupQueue_law (st : QueueState) :
    (cleanupQueue st).isSendingProcessActive = false ∧
    (∀ r, r ∈ (cleanupQueue st).recipients ↔
       r ∈ st.recipients ∧
       statusGet st.statuses r.id = some SendStatus.FAILED) ∧
    (∀ r ∈ (cleanupQueue st).recipients,
       statusGet (cleanupQueue st).statuses r.id = some SendStatus.PENDING) ∧
    (∀ p ∈ (cleanupQueue st).statuses, p.2 = SendStatus.PENDING) ∧
    (∀ r ∈ (cleanupQueue st).recipients,
       statusGet st.statuses r.id ≠ some SendStatus.SENT) := by
  refine ⟨rfl, ?_, ?_, ?_, ?_⟩
  · intro r
    simp [cleanupQueue, List.mem_filter]
  · intro r hr
    have hr2 : r ∈ st.recipients.filter
        (fun r => statusGet st.statuses r.id = some SendStatus.FAILED) := hr
    show statusGet
        ((st.recipients.filter
            (fun r => statusGet st.statuses r.id = some SendStatus.FAILED)).foldl
          (fun m r => statusSet m r.id SendStatus.PENDING) []) r.id
      = some SendStatus.PENDING
    rw [statusGet_foldl_statusSet]
    simp only [if_pos (List.mem_map.mpr ⟨r, hr2, rfl⟩)]
  · exact foldl_statusSet_all_values _ _ _ (by simp)
  · intro r hr
    have h2 := (List.mem_filter.mp hr).2
    simp only [decide_eq_true_eq] at h2
    rw [h2]
    simp

/-- Witness for C2 at a state holding one failed recipient mid-batch: the
flag is cleared, the recipient survives because its status was `FAILED`,
and its status now reads `PENDING`. -/
theorem cleanupQueue_law_witness :
    (cleanupQueue stFailedEx).isSendingProcessActive = false ∧
    (raEx ∈ (cleanupQueue stFailedEx).recipients ↔
       raEx ∈ stFailedEx.recipients ∧
       statusGet stFailedEx.statuses raEx.id = some SendStatus.FAILED) ∧
    statusGet (cleanupQueue stFailedEx).statuses raEx.id
      = some SendStatus.PENDING := by
  have h := cleanupQueue_law stFailedEx
  exact ⟨h.1, h.2.1 raEx, h.2.2.1 raEx (by decide)⟩

/-- C3: over the snapshot taken at loop start, every recipient whose status
is `PENDING` when the loop starts ends with status `SENT` or `FAILED`; the
loop leaves no key at `SENDING` that was not already `SENDING` before it
ran; keys whose status is not `PENDING` are never modified by the loop; and
a single loop iteration on a recipient whose status is not `PENDING` at its
turn leaves the whole map untouched. -/
theorem sendLoop_state_machine (mailer : Recipient → Bool)
    (xs : List Recipient) (m : StatusMap) :
    (∀ r ∈ xs, statusGet m r.id = some SendStatus.PENDING →
       statusGet (sendLoop mailer xs m) r.id = some SendStatus.SENT ∨
       statusGet (sendLoop mailer xs m) r.id = some SendStatus.FAILED) ∧
    (∀ k, statusGet m k ≠ some SendStatus.SENDING →
       statusGet (sendLoop mailer xs m) k ≠ some SendStatus.SENDING) ∧
    (∀ k, statusGet m k ≠ some SendStatus.PENDING →
       statusGet (sendLoop mailer xs m) k = statusGet m k) ∧
    (∀ (m' : StatusMap) (r : Recipient),
       statusGet m' r.id ≠ some SendStatus.PENDING →
       sendStep mailer m' r = m') :=
  ⟨fun r hr h => sendLoop_pending_terminal mailer xs m r hr h,
   fun k h => sendLoop_no_new_sending mailer xs m k h,
   fun k h => sendLoop_get_stable mailer xs m k h,
   fun _ _ h => sendStep_skip mailer h⟩

/-- Witness for C3 on a one-recipient snapshot with a succeeding mailer:
the pending recipient ends `SENT` or `FAILED`, and a key that was already
`SENT` is untouched and never becomes `SENDING`. -/
theorem sendLoop_state_machine_witness :
    (statusGet (sendLoop (fun _ => true) [raEx]
        [("a@x.com", SendStatus.PENDING), ("b@y.com", SendStatus.SENT)])
        raEx.id = some SendStatus.SENT ∨
     statusGet (sendLoop (fun _ => true) [raEx]
        [("a@x.com", SendStatus.PENDING), ("b@y.com", SendStatus.SENT)])
        raEx.id = some SendStatus.FAILED) ∧
    statusGet (sendLoop (fun _ => true) [raEx]
        [("a@x.com", SendStatus.PENDING), ("b@y.com", SendStatus.SENT)])
        "b@y.com" ≠ some SendStatus.SENDING ∧
    statusGet (sendLoop (fun _ => true) [raEx]
        [("a@x.com", SendStatus.PENDING), ("b@y.com", SendStatus.SENT)])
        "b@y.com"
      = statusGet [("a@x.com", SendStatus.PENDING), ("b@y.com", SendStatus.SENT)]
          "b@y.com" := by
  have h := sendLoop_state_machine (fun _ => true) [raEx]
    [("a@x.com", SendStatus.PENDING), ("b@y.com", SendStatus.SENT)]
  exact ⟨h.1 raEx (by decide) (by decide), h.2.1 "b@y.com" (by decide),
         h.2.2.1 "b@y.com" (by decide)⟩

theorem addRecipients_dup_nop (st : QueueState) (c : RecipientInput)
    (h : ∃ r ∈ st.recipients, toLowerCase r.email = toLowerCase c.email) :
    addRecipients st [c] = (st, { success := true }) := by
  obtain ⟨r, hr, he⟩ := h
  have hmem : toLowerCase c.email
      ∈ st.recipients.map (fun r => toLowerCase r.email) :=
    List.mem_map.mpr ⟨r, hr, he⟩
  have hsc : survivingCandidates st [c] = [] := by
    simp [survivingCandidates, List.filter, hmem]
  simp [addRecipients, hsc]

/-- C4: enqueue is idempotent on recipient identity. A candidate whose
lowercased email matches a stored recipient's lowercased email is silently
dropped: the call returns success and the whole state — recipient array and
status map — is unchanged. Consequently, enqueueing the same address twice
in any letter case (starting from a state that does not hold it) leaves the
second call a no-op and yields exactly one recipient record for that
address. -/
theorem addRecipients_idempotent (st : QueueState) (c c' : RecipientInput)
    (hcc : toLowerCase c'.email = toLowerCase c.email) :
    ((∃ r ∈ st.recipients, toLowerCase r.email = toLowerCase c.email) →
       addRecipients st [c] = (st, { success := true })) ∧
    ((∀ r ∈ st.recipients, toLowerCase r.email ≠ toLowerCase c.email) →
       (addRecipients (addRecipients st [c]).1 [c']).1
           = (addRecipients st [c]).1 ∧
       (addRecipients st [c]).1.recipients.countP
           (fun r => toLowerCase r.email == toLowerCase c.email) = 1) := by
  constructor
  · exact addRecipients_dup_nop st c
  · intro h
    have hmem : toLowerCase c.email
        ∉ st.recipients.map (fun r => toLowerCase r.email) := by
      intro hc
      obtain ⟨r, hr, he⟩ := List.mem_map.mp hc
      exact h r hr he
    have hsc : survivingCandidates st [c] =
        [{ id := toLowerCase c.email, name := c.name, email := c.email,
           company := c.company }] := by
      simp [survivingCandidates, List.filter, hmem]
    have hst1 : (addRecipients st [c]).1 =
        { recipients := st.recipients ++
            [{ id := toLowerCase c.email, name := c.name, email := c.email,
               company := c.company }],
          statuses := statusSet st.statuses (toLowerCase c.email)
            SendStatus.PENDING,
          isSendingProcessActive := st.isSendingProcessActive } := by
      simp [addRecipients, hsc]
    constructor
    · have hfresh :
          ({ id := toLowerCase c.email, name := c.name, email := c.email,
             company := c.company } : Recipient)
            ∈ (addRecipients st [c]).1.recipients := by
        rw [hst1]
        simp
      have hnop := addRecipients_dup_nop (addRecipients st [c]).1 c'
        ⟨_, hfresh, hcc.symm⟩
      exact congrArg Prod.fst hnop
    · rw [hst1]
      simp only [List.countP_append]
      have h0 : st.recipients.countP
          (fun r => toLowerCase r.email == toLowerCase c.email) = 0 := by
        rw [List.countP_eq_zero]
        intro r hr
        simpa using h r hr
      rw [h0]
      simp

/-- Witness for C4: enqueue `a@x.com` into the empty state, then enqueue
`A@X.com`; the second call changes nothing and exactly one record for the
address exists. -/
theorem addRecipients_idempotent_witness :
    (addRecipients (addRecipients st0Empty [caEx]).1 [cAXEx]).1
        = (addRecipients st0Empty [caEx]).1 ∧
    (addRecipients st0Empty [caEx]).1.recipients.countP
        (fun r => toLowerCase r.email == toLowerCase caEx.email) = 1 :=
  (addRecipients_idempotent st0Empty caEx cAXEx (by decide)).2 (by decide)

/-- Counterexample to C5: with the batch active on snapshot `[raEx]`,
recipient `b@y.com` is enqueued mid-batch; the loop (all sends succeed)
never touches it — its status is still `PENDING` after the loop — yet the
cleanup that ends the batch retains only `FAILED` recipients, so the
resulting recipient array is empty: the mid-batch recipient is NOT present
with status `PENDING` after the batch, contradicting the claim. -/
theorem midbatch_enqueue_dropped_cex :
    statusGet
        (sendLoop (fun _ => true) stMid.recipients
          (addRecipients stMid [cbEx]).1.statuses)
        "b@y.com" = some SendStatus.PENDING ∧
    (cleanupQueue
        { (addRecipients stMid [cbEx]).1 with
          statuses := sendLoop (fun _ => true) stMid.recipients
            (addRecipients stMid [cbEx]).1.statuses }).recipients = [] := by
  decide

/-- C5 amended: a recipient enqueued after the snapshot (its id matching no
snapshot entry) is never processed by the running batch — the loop leaves
its status at `PENDING` — but the batch's cleanup then removes it, because
cleanup retains only recipients whose status is `FAILED`; after cleanup it
is no longer in the recipient set. -/
theorem midbatch_enqueue_isolated (mailer : Recipient → Bool)
    (snapshot : List Recipient) (st2 : QueueState) (b : Recipient)
    (hid : ∀ r ∈ snapshot, r.id ≠ b.id)
    (hstatus : statusGet st2.statuses b.id = some SendStatus.PENDING) :
    statusGet (sendLoop mailer snapshot st2.statuses) b.id
        = some SendStatus.PENDING ∧
    b ∉ (cleanupQueue
        { st2 with
          statuses := sendLoop mailer snapshot st2.statuses }).recipients := by
  have h1 : statusGet (sendLoop mailer snapshot st2.statuses) b.id
      = statusGet st2.statuses b.id :=
    sendLoop_untouched mailer snapshot st2.statuses b.id hid
  refine ⟨h1.trans hstatus, ?_⟩
  intro hb
  have h2 := (List.mem_filter.mp hb).2
  simp only [decide_eq_true_eq] at h2
  rw [h1.trans hstatus] at h2
  cases h2

/-- Witness for C5 (amended) at the concrete mid-batch run: `b@y.com` ends
the loop still `PENDING` and is absent from the post-cleanup recipient
set. -/
theorem midbatch_enqueue_isolated_witness :
    statusGet
        (sendLoop (fun _ => true) [raEx]
          (addRecipients stMid [cbEx]).1.statuses)
        rbEx.id = some SendStatus.PENDING ∧
    rbEx ∉ (cleanupQueue
        { (addRecipients stMid [cbEx]).1 with
          statuses := sendLoop (fun _ => true) [raEx]
            (addRecipients stMid [cbEx]).1.statuses }).recipients :=
  midbatch_enqueue_isolated (fun _ => true) [raEx]
    (addRecipients stMid [cbEx]).1 rbEx (by decide) (by decide)

/-- Counterexample to C6: run the batch body on the accepted state `stMid`
with a mailer whose awaited promise rejects. The exception escapes the loop
with the module state exactly as shown: the recipient is stuck at `SENDING`
and `isSendingProcessActive` is still `true` — the lock is NOT released
before the exception propagates (the async block has no handler). -/
theorem batch_exception_keeps_lock_cex :
    runBatchBody (fun _ => Except.error ()) stMid
      = Except.error
          { recipients := [raEx],
            statuses := [("a@x.com", SendStatus.SENDING)],
            isSendingProcessActive := true } := rfl

/-- C6 amended: the batch body clears the sending flag only through the
cleanup that runs after the loop completes normally; when an exception
escapes the loop, the flag is left exactly as it was (so a batch launched
with the flag set true stays locked), and on normal completion the flag
ends false. -/
theorem runBatchBody_lock (mailer : Recipient → Except Unit Bool)
    (st : QueueState) :
    (∀ st', runBatchBody mailer st = Except.error st' →
       st'.isSendingProcessActive = st.isSendingProcessActive) ∧
    (∀ st', runBatchBody mailer st = Except.ok st' →
       st'.isSendingProcessActive = false) := by
  unfold runBatchBody
  cases h : sendLoopExc mailer st.recipients st.statuses with
  | error m1 =>
      refine ⟨?_, ?_⟩ <;> intro st' he <;> simp at he
      rw [← he]
  | ok m1 =>
      refine ⟨?_, ?_⟩ <;> intro st' he <;> simp at he
      rw [← he]
      rfl

/-- Witness for C6 (amended): with a rejecting mailer the escape state keeps
the flag at its prior value (true), and with a succeeding mailer the normal
completion ends with the flag false. -/
theorem runBatchBody_lock_witness :
    QueueState.isSendingProcessActive
        { recipients := [raEx],
          statuses := [("a@x.com", SendStatus.SENDING)],
          isSendingProcessActive := true }
      = stMid.isSendingProcessActive ∧
    QueueState.isSendingProcessActive
        { recipients := [], statuses := [],
          isSendingProcessActive := false }
      = false :=
  ⟨(runBatchBody_lock (fun _ => Except.error ()) stMid).1 _ rfl,
   (runBatchBody_lock (fun _ => Except.ok true) stMid).2 _ rfl⟩

/-- Counterexample to C7: submitting a record with an empty name, an empty
company and a syntactically invalid email to the enqueue API succeeds: the
handler answers HTTP 201 and the record is inserted with status `PENDING` —
there is no `ValidationError` and the state is mutated. -/
theorem enqueue_no_validation_cex :
    addRecipientsHandler st0Empty (RequestBody.jsonArray [badInputEx])
      = ({ recipients := [{ id := "not-an-email", name := "",
                            email := "not-an-email", company := "" }],
           statuses := [("not-an-email", SendStatus.PENDING)],
           isSendingProcessActive := false }, 201) := by
  decide

/-- C7 amended: the enqueue operation performs no per-record validation.
Every array body — whatever the record fields contain — is accepted with
HTTP 201 and the state produced by `addRecipients` (dedup only); the only
rejected input shape is a non-array body, answered 400 with no state
change. -/
theorem addRecipientsHandler_no_validation (st : QueueState)
    (records : List RecipientInput) :
    addRecipientsHandler st (RequestBody.jsonArray records)
        = ((addRecipients st records).1, 201) ∧
    addRecipientsHandler st RequestBody.notArray = (st, 400) := by
  constructor
  · simp [addRecipientsHandler, addRecipients]
  · rfl

/-- Counterexample to C8: adding `a@x.com` to the empty queue (one recipient
actually added) and re-adding it to the resulting queue (zero recipients
actually added) return the very same result value, so the value returned by
the enqueue operation cannot be the count of recipients actually added. -/
theorem addRecipients_result_no_count_cex :
    (addRecipients st0Empty [caEx]).2
        = (addRecipients (addRecipients st0Empty [caEx]).1 [caEx]).2 ∧
    (addRecipients st0Empty [caEx]).1.recipients.length = 1 ∧
    (addRecipients (addRecipients st0Empty [caEx]).1 [caEx]).1.recipients.length
        = 1 := by
  decide

/-- C8 amended: enqueue always returns the fixed value `\x7b success: true \x7d`
— it reports no count — while the recipients actually added are exactly the
candidates surviving dedup, appended in order, each inserted with status
`PENDING` (zero added when every candidate is a duplicate). -/
theorem addRecipients_added (st : QueueState)
    (newRecipients : List RecipientInput) :
    (addRecipients st newRecipients).2 = { success := true } ∧
    (addRecipients st newRecipients).1.recipients
        = st.recipients ++ survivingCandidates st newRecipients ∧
    (addRecipients st newRecipients).1.recipients.length
        = st.recipients.length
            + (survivingCandidates st newRecipients).length ∧
    (∀ r ∈ survivingCandidates st newRecipients,
       statusGet (addRecipients st newRecipients).1.statuses r.id
         = some SendStatus.PENDING) := by
  refine ⟨rfl, rfl, by simp [addRecipients], ?_⟩
  intro r hr
  show statusGet
      ((survivingCandidates st newRecipients).foldl
        (fun m r => statusSet m r.id SendStatus.PENDING) st.statuses) r.id
    = some SendStatus.PENDING
  rw [statusGet_foldl_statusSet]
  simp only [if_pos (List.mem_map.mpr ⟨r, hr, rfl⟩)]

/-- Witness for C8 (amended): adding `a@x.com` to the empty queue returns
the success value and leaves the new record with status `PENDING`. -/
theorem addRecipients_added_witness :
    (addRecipients st0Empty [caEx]).2 = { success := true } ∧
    statusGet (addRecipients st0Empty [caEx]).1.statuses raEx.id
      = some SendStatus.PENDING := by
  have h := addRecipients_added st0Empty [caEx]
  exact ⟨h.1, h.2.2.2 raEx (by decide)⟩

/-- C9: within one `addRecipients` call dedup is computed only against
stored recipients: submitting `a@x.com` and `A@X.com` together to the empty
queue inserts two separate recipient entries that share the id `a@x.com`,
while the status map gains only a single entry — so one enqueue call breaks
the invariant that every stored recipient has exactly one status entry of
its own. -/
theorem addRecipients_intra_call_dup :
    (addRecipients st0Empty [caEx, cAXEx]).1.recipients.length = 2 ∧
    (addRecipients st0Empty [caEx, cAXEx]).1.recipients.map Recipient.id
        = ["a@x.com", "a@x.com"] ∧
    (addRecipients st0Empty [caEx, cAXEx]).1.statuses
        = [("a@x.com", SendStatus.PENDING)] ∧
    (addRecipients st0Empty [caEx, cAXEx]).1.statuses.length = 1 := by
  decide

/-- Counterexample to C10: the parsed document with `recipients` the number
1, `statuses` an empty object and `isSendingProcessActive` false passes the
shallow truthiness/typeof check, so `readDataSync` returns it unchanged —
not the default state although it is structurally invalid — and
`getQueueState` then throws a `TypeError` spreading the non-iterable
recipients field instead of producing a snapshot. -/
theorem readDataSync_illtyped_cex :
    readDataSync (FileReadResult.parsed illTypedDoc) = illTypedDoc ∧
    illTypedDoc ≠ defaultData ∧
    getQueueState (FileReadResult.parsed illTypedDoc) = Except.error () := by
  refine ⟨rfl, ?_, rfl⟩
  intro h
  injection h with h1
  injection h1 with h2 h3
  injection h2 with h4 h5
  exact JsonValue.noConfusion h5

/-- C10 amended: `readDataSync` itself is total and never throws — a
missing file, unreadable or unparsable content, and any parsed document
failing the shallow check (falsy `recipients` or `statuses`, non-boolean
`isSendingProcessActive`) all yield the default state — but a document
passing the shallow check is returned as is even when ill-typed, and
`getQueueState` produces a snapshot exactly when spreading the recipients
field of the read data succeeds, throwing a `TypeError` when that field is
not iterable. -/
theorem readDataSync_shallow_check (f : FileReadResult) :
    (f = FileReadResult.missing → readDataSync f = defaultData) ∧
    (f = FileReadResult.unreadable → readDataSync f = defaultData) ∧
    (∀ data, f = FileReadResult.parsed data →
       (jsTruthy (jsGetField data "recipients") = false ∨
        jsTruthy (jsGetField data "statuses") = false ∨
        jsIsBoolean (jsGetField data "isSendingProcessActive") = false) →
       readDataSync f = defaultData) ∧
    (∀ data, f = FileReadResult.parsed data →
       jsTruthy (jsGetField data "recipients") = true →
       jsTruthy (jsGetField data "statuses") = true →
       jsIsBoolean (jsGetField data "isSendingProcessActive") = true →
       readDataSync f = data) ∧
    (∀ xs, jsArraySpread (jsGetField (readDataSync f) "recipients")
          = Except.ok xs →
       getQueueState f = Except.ok
         { recipients := xs,
           statuses := jsObjectSpread (jsGetField (readDataSync f) "statuses"),
           isSending := jsGetField (readDataSync f) "isSendingProcessActive" }) ∧
    (jsArraySpread (jsGetField (readDataSync f) "recipients")
          = Except.error () →
       getQueueState f = Except.error ()) := by
  refine ⟨?_, ?_, ?_, ?_, ?_, ?_⟩
  · intro h
    subst h
    rfl
  · intro h
    subst h
    rfl
  · intro data h hbad
    subst h
    rcases hbad with hb | hb | hb <;> simp [readDataSync, hb]
  · intro data h h1 h2 h3
    subst h
    simp [readDataSync, h1, h2, h3]
  · intro xs hxs
    simp [getQueueState, hxs]
  · intro hxs
    simp [getQueueState, hxs]

/-- Witness for C10 (amended) at concrete file states: a missing file and a
check-failing document read as the default state; the ill-typed document
passing the check is returned as is and makes the snapshot read throw,
while the default state yields a snapshot. -/
theorem readDataSync_shallow_check_witness :
    readDataSync FileReadResult.missing = defaultData ∧
    readDataSync (FileReadResult.parsed (JsonValue.num 5)) = defaultData ∧
    readDataSync (FileReadResult.parsed illTypedDoc) = illTypedDoc ∧
    getQueueState (FileReadResult.parsed illTypedDoc) = Except.error () ∧
    getQueueState FileReadResult.missing = Except.ok
      { recipients := [], statuses := [],
        isSending := some (JsonValue.bool false) } :=
  ⟨(readDataSync_shallow_check FileReadResult.missing).1 rfl,
   (readDataSync_shallow_check
      (FileReadResult.parsed (JsonValue.num 5))).2.2.1
      (JsonValue.num 5) rfl (Or.inl (by decide)),
   (readDataSync_shallow_check
      (FileReadResult.parsed illTypedDoc)).2.2.2.1
      illTypedDoc rfl (by decide) (by decide) (by decide),
   (readDataSync_shallow_check
      (FileReadResult.parsed illTypedDoc)).2.2.2.2.2 rfl,
   (readDataSync_shallow_check FileReadResult.missing).2.2.2.2.1 [] rfl⟩

end BulkEmail
